import Mathlib

/-!
Shallow embedding of `benchmarking.py` from the Codec-SUPERB repository.

The script evaluates audio codec reconstruction quality: for each model
split of a dataset it builds an id → resynthesized-array mapping, walks the
"original" split (entry by entry in streaming mode, or in fixed-size
batches), pads each pair of arrays to equal length, skips entries whose
(padded) original signal exceeds a maximum duration, computes a metrics
record per remaining entry via an external metrics function, and finally
averages every metric over the collected records.

Modelling conventions:
  * audio arrays are `List ℤ` of samples; metric values are `ℚ`;
  * the external `get_metrics` function is an opaque parameter `gm`;
  * `AudioSignal.duration` (external audiotools) is array length divided
    by the sampling rate, as a rational;
  * a Python `KeyError` on `id_dict[entry['id']]` is `Except.error`;
  * the returned `Except.ok` value of `evaluate_dataset` is the
    `result_data` mapping that the script serializes to JSON.
-/

/-- The audio payload of a dataset entry: `entry['audio']` in the source,
with fields `array` and `sampling_rate`. -/
structure Audio where
  array : List ℤ
  sampling_rate : ℕ
deriving DecidableEq, Repr

/-- One dataset entry: `{'id': ..., 'audio': {'array': ..., 'sampling_rate': ...}}`. -/
structure Entry where
  id : ℕ
  audio : Audio
deriving DecidableEq, Repr

/-- A per-entry metrics record: metric name → value, as produced by the
external `get_metrics` function. -/
abbrev Metrics := List (String × ℚ)

/-- The opaque external metrics function: takes the padded original array,
the padded resynthesized array and the sampling rate (the data of the two
`AudioSignal`s handed to `get_metrics`). -/
abbrev GetMetricsFn := List ℤ → List ℤ → ℕ → Metrics

/-- `AudioSignal(arr, rate).duration` of the external audiotools library:
number of samples divided by the sampling rate, in seconds. -/
def duration (arr : List ℤ) (rate : ℕ) : ℚ :=
  (arr.length : ℚ) / (rate : ℚ)

/-- Modelled from the spec: `pad_arrays_to_match` lives in
`codec/general.py`, which is not among the provided source files; the spec
states that after padding both arrays have equal length, that length is the
maximum of the two original lengths, no samples of the longer array are
truncated, and the fill is zero. -/
def pad_arrays_to_match (array1 array2 : List ℤ) : List ℤ × List ℤ :=
  let maxLength := max array1.length array2.length
  (array1 ++ List.replicate (maxLength - array1.length) 0,
   array2 ++ List.replicate (maxLength - array2.length) 0)

/-- The per-model id → array dictionary
`{i['id']: i['audio']['array'] for i in c[model]}`, kept as the insertion
list; `dictGet` gives it Python-dict lookup semantics. -/
def buildIdDict (split : List Entry) : List (ℕ × List ℤ) :=
  split.map (fun e => (e.id, e.audio.array))

/-- Lookup in an id dictionary; as in a Python dict comprehension, a later
binding of the same id overwrites an earlier one. -/
def dictGet (d : List (ℕ × List ℤ)) (k : ℕ) : Option (List ℤ) :=
  (d.reverse.find? (fun p => p.1 = k)).map Prod.snd

/-- `compute_metrics(entry, id_dict, max_duration)`: looks the entry id up
in `id_dict` (a missing id raises `KeyError`, modelled as `.error` carrying
the id), pads both arrays, drops the entry (`.ok none`) when the padded
original signal's duration exceeds `max_duration`, and otherwise returns
the metrics record. -/
def compute_metrics (gm : GetMetricsFn) (entry : Entry)
    (id_dict : List (ℕ × List ℤ)) (max_duration : ℚ) :
    Except ℕ (Option Metrics) :=
  match dictGet id_dict entry.id with
  | none => .error entry.id
  | some resynth =>
    let padded := pad_arrays_to_match entry.audio.array resynth
    let sampling_rate := entry.audio.sampling_rate
    if duration padded.1 sampling_rate > max_duration then .ok none
    else .ok (some (gm padded.1 padded.2 sampling_rate))

/-- Loop body of the generator `batched_dataset`: `batch` is the list being
accumulated; a batch is yielded when it reaches `batch_size`, and a final
non-empty batch is flushed at the end. -/
def batchedGo {α : Type} (batch_size : ℕ) : List α → List α → List (List α)
  | [], batch => if batch.isEmpty then [] else [batch]
  | item :: rest, batch =>
    if (batch ++ [item]).length = batch_size then
      (batch ++ [item]) :: batchedGo batch_size rest []
    else
      batchedGo batch_size rest (batch ++ [item])

/-- `batched_dataset(dataset, batch_size)`: the list of batches the Python
generator yields. -/
def batched_dataset {α : Type} (dataset : List α) (batch_size : ℕ) :
    List (List α) :=
  batchedGo batch_size dataset []

/-- The streaming-side processing loop: `process_entry` applied to each
single entry in order, appending every non-`None` metrics record to the
accumulated `metrics_results`; a `KeyError` from `compute_metrics`
propagates. -/
def processStreaming (gm : GetMetricsFn) (id_dict : List (ℕ × List ℤ))
    (max_duration : ℚ) : List Entry → List Metrics → Except ℕ (List Metrics)
  | [], acc => .ok acc
  | e :: rest, acc =>
    match compute_metrics gm e id_dict max_duration with
    | .error i => .error i
    | .ok none => processStreaming gm id_dict max_duration rest acc
    | .ok (some m) => processStreaming gm id_dict max_duration rest (acc ++ [m])

/-- The batch-side processing loop: `process_entry` applied to each batch
(a list of entries), which runs the same inner loop over the batch's items. -/
def processBatched (gm : GetMetricsFn) (id_dict : List (ℕ × List ℤ))
    (max_duration : ℚ) : List (List Entry) → List Metrics →
    Except ℕ (List Metrics)
  | [], acc => .ok acc
  | b :: rest, acc =>
    match processStreaming gm id_dict max_duration b acc with
    | .error i => .error i
    | .ok acc2 => processBatched gm id_dict max_duration rest acc2

/-- The values accumulated under metric name `k` by the aggregation loop
`for metrics in metrics_results: for k, v in metrics.items():
aggregated_metrics[k].append(v)`. -/
def aggregate (records : List Metrics) (k : String) : List ℚ :=
  records.flatMap (fun r => (r.filter (fun p => p.1 = k)).map Prod.snd)

/-- The metric names that occur in the collected records (the keys of the
`aggregated_metrics` defaultdict), in first-occurrence order. -/
def metricKeys (records : List Metrics) : List String :=
  (records.flatMap (fun r => r.map Prod.fst)).dedup

/-- Arithmetic mean of a list of rationals; on the values collected here the
lists are never empty and hold no NaN, so this coincides with `np.nanmean`. -/
def mean (l : List ℚ) : ℚ := l.sum / (l.length : ℚ)

/-- `model_result`: metric name → mean of its collected values
(`{k: np.nanmean(v) if v else np.nan for k, v in aggregated_metrics.items()}`;
every present key has a non-empty list, so the `np.nan` branch is dead). -/
def model_result (records : List Metrics) : List (String × ℚ) :=
  (metricKeys records).map (fun k => (k, mean (aggregate records k)))

/-- A loaded dataset: named splits, one of which is `"original"`. -/
structure Dataset where
  splits : List (String × List Entry)
deriving DecidableEq, Repr

/-- `c.keys()`: the split names. -/
def Dataset.keys (c : Dataset) : List String :=
  c.splits.map Prod.fst

/-- `c[name]`: the split of that name, `none` when absent (a Python
`KeyError`). -/
def Dataset.get (c : Dataset) (name : String) : Option (List Entry) :=
  (c.splits.find? (fun p => p.1 = name)).map Prod.snd

/-- `--mode`: streaming or batch. -/
inductive Mode where
  | streaming : Mode
  | batch : Mode
deriving DecidableEq, Repr

/-- Failures of the evaluation run: a missing entry id in a model's
id dictionary, or a missing split (both Python `KeyError`s). -/
inductive EvalError where
  | keyError (id : ℕ) : EvalError
  | splitError (name : String) : EvalError
deriving DecidableEq, Repr

/-- Processing of the original split for one model: the loop
`for entry in dataset_iterable: process_entry(...)` where `dataset_iterable`
is `c['original']` in streaming mode and `batched_dataset(c['original'],
batch_size)` in batch mode. -/
def processOriginal (gm : GetMetricsFn) (id_dict : List (ℕ × List ℤ))
    (max_duration : ℚ) (mode : Mode) (batch_size : ℕ)
    (original : List Entry) : Except ℕ (List Metrics) :=
  match mode with
  | .streaming => processStreaming gm id_dict max_duration original []
  | .batch => processBatched gm id_dict max_duration
      (batched_dataset original batch_size) []

/-- The guard `specific_models is not None and model not in specific_models`
that makes the per-model loop `continue` without building anything. -/
def skippedModel (specific_models : Option (List String)) (model : String) : Bool :=
  match specific_models with
  | none => false
  | some l => decide (model ∉ l)

/-- The `for model in models` loop of `evaluate_dataset`: models not in
`specific_models` (when given) are skipped before anything is built; an
evaluated model gets its id dictionary, the processed original split, and
its aggregated `model_result` entry in `result_data`. -/
def evalModels (gm : GetMetricsFn) (c : Dataset) (mode : Mode)
    (batch_size : ℕ) (specific_models : Option (List String))
    (max_duration : ℚ) : List String →
    Except EvalError (List (String × List (String × ℚ)))
  | [] => .ok []
  | model :: rest =>
    if skippedModel specific_models model then
      evalModels gm c mode batch_size specific_models max_duration rest
    else
      match c.get model with
      | none => .error (.splitError model)
      | some modelSplit =>
        let id_dict := buildIdDict modelSplit
        match c.get "original" with
        | none => .error (.splitError "original")
        | some original =>
          match processOriginal gm id_dict max_duration mode batch_size original with
          | .error i => .error (.keyError i)
          | .ok records =>
            match evalModels gm c mode batch_size specific_models max_duration rest with
            | .error err => .error err
            | .ok restResults => .ok ((model, model_result records) :: restResults)

/-- `evaluate_dataset`: builds the model list (every split except
`"original"`), runs the per-model loop, and returns the `result_data`
mapping that the script writes to the output JSON file. -/
def evaluate_dataset (gm : GetMetricsFn) (c : Dataset) (mode : Mode)
    (batch_size : ℕ) (specific_models : Option (List String))
    (max_duration : ℚ) :
    Except EvalError (List (String × List (String × ℚ))) :=
  evalModels gm c mode batch_size specific_models max_duration
    (c.keys.filter (fun k => k ≠ "original"))

/-- The record an entry contributes when no `KeyError` occurs: `none` when
the entry is skipped for duration, `some` its metrics record otherwise. -/
def entryRecord (gm : GetMetricsFn) (id_dict : List (ℕ × List ℤ))
    (max_duration : ℚ) (e : Entry) : Option Metrics :=
  match compute_metrics gm e id_dict max_duration with
  | .error _ => none
  | .ok o => o

/-- Splitting the entry stream anywhere is transparent to the processing
loop: processing `a ++ b` is processing `a`, then `b` from the reached
accumulator (or stopping at the first `KeyError`). -/
theorem processStreaming_append (gm : GetMetricsFn) (d : List (ℕ × List ℤ))
    (maxd : ℚ) (a b : List Entry) (acc : List Metrics) :
    processStreaming gm d maxd (a ++ b) acc =
      match processStreaming gm d maxd a acc with
      | .error i => .error i
      | .ok acc2 => processStreaming gm d maxd b acc2 := by
  induction a generalizing acc with
  | nil => simp [processStreaming]
  | cons e rest ih =>
    simp only [List.cons_append, processStreaming]
    cases compute_metrics gm e d maxd with
    | error i => rfl
    | ok o => cases o <;> simp [ih]

/-- Processing a list of batches is processing their concatenation. -/
theorem processBatched_eq_flatten (gm : GetMetricsFn) (d : List (ℕ × List ℤ))
    (maxd : ℚ) (bl : List (List Entry)) (acc : List Metrics) :
    processBatched gm d maxd bl acc =
      processStreaming gm d maxd bl.flatten acc := by
  induction bl generalizing acc with
  | nil => simp [processBatched, processStreaming]
  | cons b rest ih =>
    simp only [processBatched, List.flatten_cons, processStreaming_append]
    cases processStreaming gm d maxd b acc with
    | error i => rfl
    | ok acc2 => simp [ih]

/-- The batches of `batched_dataset` concatenate back to the input,
whatever is already buffered. -/
theorem batchedGo_flatten {α : Type} (bs : ℕ) (xs batch : List α) :
    (batchedGo bs xs batch).flatten = batch ++ xs := by
  induction xs generalizing batch with
  | nil =>
    by_cases h : batch.isEmpty <;>
      simp_all [batchedGo, List.isEmpty_iff]
  | cons item rest ih =>
    simp only [batchedGo]
    split <;> simp [ih]

/-- The concatenation of the yielded batches is the original sequence. -/
theorem batched_dataset_flatten {α : Type} (xs : List α) (bs : ℕ) :
    (batched_dataset xs bs).flatten = xs := by
  simpa using batchedGo_flatten bs xs []

/-- Batch mode performs the same processing as streaming mode. -/
theorem processBatched_batched (gm : GetMetricsFn) (d : List (ℕ × List ℤ))
    (maxd : ℚ) (xs : List Entry) (bs : ℕ) (acc : List Metrics) :
    processBatched gm d maxd (batched_dataset xs bs) acc =
      processStreaming gm d maxd xs acc := by
  rw [processBatched_eq_flatten, batched_dataset_flatten]

/-- For a positive batch size, every yielded batch is at most `batch_size`
long, provided the current buffer is still strictly below the size. -/
theorem batchedGo_length_le {α : Type} (bs : ℕ) (hbs : 1 ≤ bs) :
    ∀ (xs batch : List α), batch.length < bs →
      ∀ b ∈ batchedGo bs xs batch, b.length ≤ bs := by
  intro xs
  induction xs with
  | nil =>
    intro batch hlt b hb
    simp only [batchedGo] at hb
    split at hb
    · simp at hb
    · simp only [List.mem_singleton] at hb
      exact hb ▸ Nat.le_of_lt hlt
  | cons item rest ih =>
    intro batch hlt b hb
    simp only [batchedGo] at hb
    split at hb
    · rename_i heq
      rcases List.mem_cons.mp hb with rfl | hb2
      · exact Nat.le_of_eq heq
      · exact ih [] (Nat.lt_of_lt_of_le Nat.zero_lt_one hbs) b hb2
    · rename_i hne
      have hlen : (batch ++ [item]).length ≤ bs := by
        have : (batch ++ [item]).length = batch.length + 1 := by simp
        omega
      exact ih (batch ++ [item]) (Nat.lt_of_le_of_ne hlen hne) b hb

/-- `compute_metrics` fails exactly on a missing id, and the error carries
that id. -/
theorem compute_metrics_error (gm : GetMetricsFn) (e : Entry)
    (d : List (ℕ × List ℤ)) (maxd : ℚ) (i : ℕ)
    (h : compute_metrics gm e d maxd = .error i) :
    dictGet d e.id = none ∧ i = e.id := by
  cases hx : dictGet d e.id with
  | none =>
    simp only [compute_metrics, hx] at h
    injection h with h2
    exact ⟨rfl, h2.symm⟩
  | some r =>
    simp only [compute_metrics, hx] at h
    split at h <;> cases h

/-- When every entry's id is present in the dictionary, the processing loop
succeeds and produces exactly the non-skipped records, in entry order. -/
theorem processStreaming_ok (gm : GetMetricsFn) (d : List (ℕ × List ℤ))
    (maxd : ℚ) (xs : List Entry) (acc : List Metrics)
    (h : ∀ e ∈ xs, (dictGet d e.id).isSome) :
    processStreaming gm d maxd xs acc =
      .ok (acc ++ xs.filterMap (entryRecord gm d maxd)) := by
  induction xs generalizing acc with
  | nil => simp [processStreaming]
  | cons e rest ih =>
    have he : (dictGet d e.id).isSome := h e (List.mem_cons_self e rest)
    have hrest : ∀ x ∈ rest, (dictGet d x.id).isSome :=
      fun x hx => h x (List.mem_cons_of_mem e hx)
    obtain ⟨r, hr⟩ := Option.isSome_iff_exists.mp he
    by_cases hdur :
        duration (pad_arrays_to_match e.audio.array r).1 e.audio.sampling_rate > maxd
    · have hcm : compute_metrics gm e d maxd = .ok none := by
        simp [compute_metrics, hr, hdur]
      have hrec : entryRecord gm d maxd e = none := by
        simp [entryRecord, hcm]
      simp only [processStreaming, hcm, List.filterMap_cons, hrec]
      exact ih acc hrest
    · have hcm : compute_metrics gm e d maxd =
          .ok (some (gm (pad_arrays_to_match e.audio.array r).1
            (pad_arrays_to_match e.audio.array r).2 e.audio.sampling_rate)) := by
        simp [compute_metrics, hr, hdur]
      have hrec : entryRecord gm d maxd e =
          some (gm (pad_arrays_to_match e.audio.array r).1
            (pad_arrays_to_match e.audio.array r).2 e.audio.sampling_rate) := by
        simp [entryRecord, hcm]
      simp only [processStreaming, hcm, List.filterMap_cons, hrec]
      rw [ih _ hrest]
      simp

/-- An entry whose id is missing from the dictionary makes the whole
processing loop fail with a key error (for some missing id). -/
theorem processStreaming_error (gm : GetMetricsFn) (d : List (ℕ × List ℤ))
    (maxd : ℚ) (xs : List Entry) (acc : List Metrics) (e : Entry)
    (hmem : e ∈ xs) (hmiss : dictGet d e.id = none) :
    ∃ i, processStreaming gm d maxd xs acc = .error i ∧ dictGet d i = none := by
  induction xs generalizing acc with
  | nil => cases hmem
  | cons x rest ih =>
    rcases List.mem_cons.mp hmem with rfl | hmem2
    · refine ⟨e.id, ?_, hmiss⟩
      simp [processStreaming, compute_metrics, hmiss]
    · simp only [processStreaming]
      cases hcm : compute_metrics gm x d maxd with
      | error i =>
        obtain ⟨hnone, rfl⟩ := compute_metrics_error gm x d maxd i hcm
        exact ⟨x.id, rfl, hnone⟩
      | ok o =>
        cases o with
        | none => exact ih acc hmem2
        | some m => exact ih (acc ++ [m]) hmem2

/-- Whatever the mode and batch size, per-model processing is the streaming
fold over the original split. -/
theorem processOriginal_eq_streaming (gm : GetMetricsFn)
    (d : List (ℕ × List ℤ)) (maxd : ℚ) (mode : Mode) (bs : ℕ)
    (original : List Entry) :
    processOriginal gm d maxd mode bs original =
      processStreaming gm d maxd original [] := by
  cases mode with
  | streaming => rfl
  | batch => exact processBatched_batched gm d maxd original bs []

/-- The per-model loop does not depend on the mode or the batch size. -/
theorem evalModels_mode_irrel (gm : GetMetricsFn) (c : Dataset)
    (spec : Option (List String)) (maxd : ℚ) (ms : List String)
    (mode₁ mode₂ : Mode) (bs₁ bs₂ : ℕ) :
    evalModels gm c mode₁ bs₁ spec maxd ms =
      evalModels gm c mode₂ bs₂ spec maxd ms := by
  induction ms with
  | nil => rfl
  | cons model rest ih =>
    simp only [evalModels, processOriginal_eq_streaming, ih]

/-- Permuting the collected records permutes each metric's value list. -/
theorem aggregate_perm (r₁ r₂ : List Metrics) (h : r₁.Perm r₂) (k : String) :
    (aggregate r₁ k).Perm (aggregate r₂ k) :=
  h.flatMap_right _

/-- The arithmetic mean is invariant under permutation. -/
theorem mean_perm (l₁ l₂ : List ℚ) (h : l₁.Perm l₂) : mean l₁ = mean l₂ := by
  rw [mean, mean, h.sum_eq, h.length_eq]

/-- A name listed in `c.keys()` always resolves to a split. -/
theorem get_isSome_of_mem_keys (c : Dataset) (m : String) (h : m ∈ c.keys) :
    ∃ s, c.get m = some s := by
  rw [Dataset.keys] at h
  obtain ⟨p, hp, rfl⟩ := List.mem_map.mp h
  have hfind : (c.splits.find? (fun q => q.1 = p.1)).isSome := by
    rw [List.find?_isSome]
    exact ⟨p, hp, by simp⟩
  obtain ⟨q, hq⟩ := Option.isSome_iff_exists.mp hfind
  exact ⟨q.2, by rw [Dataset.get, hq]; rfl⟩

/-- The models recorded in a successful run are exactly the non-skipped
ones, in loop order. -/
theorem evalModels_ok_keys (gm : GetMetricsFn) (c : Dataset) (mode : Mode)
    (bs : ℕ) (spec : Option (List String)) (maxd : ℚ) (ms : List String)
    (res : List (String × List (String × ℚ)))
    (h : evalModels gm c mode bs spec maxd ms = .ok res) :
    res.map Prod.fst = ms.filter (fun m => !skippedModel spec m) := by
  induction ms generalizing res with
  | nil =>
    simp only [evalModels] at h
    injection h with h2
    subst h2
    rfl
  | cons model rest ih =>
    simp only [evalModels] at h
    split at h
    · rename_i hskip
      rw [List.filter_cons_of_neg (by simp [hskip])]
      exact ih _ h
    · rename_i hskip
      rw [List.filter_cons_of_pos (by simp [hskip])]
      split at h
      · cases h
      · split at h
        · cases h
        · split at h
          · cases h
          · split at h
            · cases h
            · rename_i hrest
              injection h with h5
              subst h5
              simp [ih _ hrest]

/-- With an empty original split, every evaluated model completes with an
empty record list and hence an empty aggregated mapping. -/
theorem evalModels_empty_original (gm : GetMetricsFn) (c : Dataset)
    (mode : Mode) (bs : ℕ) (spec : Option (List String)) (maxd : ℚ)
    (ms : List String) (horig : c.get "original" = some [])
    (hms : ∀ m ∈ ms, ∃ s, c.get m = some s) :
    evalModels gm c mode bs spec maxd ms =
      .ok ((ms.filter (fun m => !skippedModel spec m)).map (fun m => (m, []))) := by
  induction ms with
  | nil => rfl
  | cons model rest ih =>
    have hrest : ∀ m ∈ rest, ∃ s, c.get m = some s :=
      fun m hm => hms m (List.mem_cons_of_mem _ hm)
    by_cases hskip : skippedModel spec model
    · rw [List.filter_cons_of_neg (by simp [hskip])]
      simp only [evalModels, if_pos hskip]
      exact ih hrest
    · obtain ⟨s, hs⟩ := hms model (List.mem_cons_self model rest)
      rw [List.filter_cons_of_pos (by simp [hskip])]
      simp only [evalModels, if_neg hskip, hs, horig,
        processOriginal_eq_streaming, processStreaming, ih hrest, List.map_cons]
      simp [model_result, metricKeys]

/-- An original entry whose id is missing from an evaluated model's
dictionary aborts the whole per-model loop with a key error. -/
theorem evalModels_error_of_missing (gm : GetMetricsFn) (c : Dataset)
    (mode : Mode) (bs : ℕ) (spec : Option (List String)) (maxd : ℚ)
    (ms : List String) (model : String) (original modelSplit : List Entry)
    (e : Entry) (hm : model ∈ ms)
    (hall : ∀ m ∈ ms, ∃ s, c.get m = some s)
    (horig : c.get "original" = some original)
    (hskip : ¬ skippedModel spec model)
    (hms : c.get model = some modelSplit)
    (he : e ∈ original)
    (hmiss : dictGet (buildIdDict modelSplit) e.id = none) :
    ∃ i, evalModels gm c mode bs spec maxd ms = .error (.keyError i) := by
  induction ms with
  | nil => cases hm
  | cons m rest ih =>
    have hrest : ∀ x ∈ rest, ∃ s, c.get x = some s :=
      fun x hx => hall x (List.mem_cons_of_mem _ hx)
    rcases List.mem_cons.mp hm with rfl | hm2
    · obtain ⟨i, hi, _⟩ :=
        processStreaming_error gm (buildIdDict modelSplit) maxd original [] e he hmiss
      refine ⟨i, ?_⟩
      simp only [evalModels, if_neg hskip, hms, horig,
        processOriginal_eq_streaming, hi]
    · by_cases hsk : skippedModel spec m
      · simp only [evalModels, if_pos hsk]
        exact ih hm2 hrest
      · obtain ⟨s, hs⟩ := hall m (List.mem_cons_self m rest)
        simp only [evalModels, if_neg hsk, hs, horig, processOriginal_eq_streaming]
        cases hp : processStreaming gm (buildIdDict s) maxd original [] with
        | error i => exact ⟨i, by simp [hp]⟩
        | ok records =>
          obtain ⟨i, hi⟩ := ih hm2 hrest
          exact ⟨i, by simp [hp, hi]⟩

/-- With a `--models` filter, the per-model loop reads only the original
split and the splits of listed models: two datasets agreeing there produce
identical runs. -/
theorem evalModels_congr_filtered (gm : GetMetricsFn) (mode : Mode) (bs : ℕ)
    (maxd : ℚ) (specList : List String) (c c2 : Dataset)
    (horig : c.get "original" = c2.get "original")
    (hspec : ∀ m ∈ specList, c.get m = c2.get m) (ms : List String) :
    evalModels gm c mode bs (some specList) maxd ms =
      evalModels gm c2 mode bs (some specList) maxd ms := by
  induction ms with
  | nil => rfl
  | cons model rest ih =>
    by_cases hskip : skippedModel (some specList) model
    · simp only [evalModels, if_pos hskip, ih]
    · have hmem : model ∈ specList := by
        simpa [skippedModel] using hskip
      simp only [evalModels, if_neg hskip, ← hspec model hmem, ← horig, ih]

/-- A filter name that is not a split of the dataset has no effect on the
per-model loop. -/
theorem evalModels_unknown_name (gm : GetMetricsFn) (c : Dataset)
    (mode : Mode) (bs : ℕ) (maxd : ℚ) (name : String)
    (others : List String) (hname : name ∉ c.keys) (ms : List String)
    (hms : ∀ m ∈ ms, m ∈ c.keys) :
    evalModels gm c mode bs (some (name :: others)) maxd ms =
      evalModels gm c mode bs (some others) maxd ms := by
  induction ms with
  | nil => rfl
  | cons model rest ih =>
    have hne : model ≠ name :=
      fun h => hname (h ▸ hms model (List.mem_cons_self model rest))
    have hskip_eq : skippedModel (some (name :: others)) model =
        skippedModel (some others) model := by
      simp [skippedModel, List.mem_cons, hne]
    have hrest : ∀ m ∈ rest, m ∈ c.keys :=
      fun m hm => hms m (List.mem_cons_of_mem _ hm)
    simp only [evalModels, hskip_eq, ih hrest]

/-- C1 (counterexample): a dataset whose model `"m"` has an empty split but
whose original split is non-empty does not complete: the first original
entry's id is missing from the empty id dictionary and the run aborts with
a key error, so no metrics (not even not-a-number ones) are reported. -/
theorem C1_counterexample :
    evaluate_dataset (fun _ _ _ => [("mse", 0)])
      ⟨[("original", [⟨1, ⟨[0], 1⟩⟩]), ("m", [])]⟩
      Mode.streaming 100 none 120 = .error (.keyError 1) := by
  rfl

/-- C1 (amended): when the original split is empty — the only way an
evaluated model with an empty split lets the run complete —
`evaluate_dataset` completes, every evaluated model (the empty-split one
included) gets an empty aggregated mapping (vacuously not-a-number for
every metric of that model), and output is produced for all non-skipped
models. -/
theorem C1_empty_split (gm : GetMetricsFn) (c : Dataset) (mode : Mode)
    (bs : ℕ) (spec : Option (List String)) (maxd : ℚ)
    (horig : c.get "original" = some []) :
    evaluate_dataset gm c mode bs spec maxd =
      .ok (((c.keys.filter (fun k => k ≠ "original")).filter
        (fun m => !skippedModel spec m)).map (fun m => (m, []))) := by
  rw [evaluate_dataset]
  exact evalModels_empty_original gm c mode bs spec maxd _ horig
    (fun m hm => get_isSome_of_mem_keys c m (List.mem_of_mem_filter hm))

/-- C1 (witness): concrete dataset with empty original and empty model
split: the run completes and both models report empty mappings. -/
theorem C1_empty_split_witness :
    evaluate_dataset (fun _ _ _ => [("mse", 0)])
      ⟨[("original", []), ("m", []), ("n", [⟨1, ⟨[0], 1⟩⟩])]⟩
      Mode.streaming 100 none 120 = .ok [("m", []), ("n", [])] := by
  rw [C1_empty_split (fun _ _ _ => [("mse", 0)])
    ⟨[("original", []), ("m", []), ("n", [⟨1, ⟨[0], 1⟩⟩])]⟩
    Mode.streaming 100 none 120 (by rfl)]
  rfl

/-- C2: an original entry whose id is absent from an evaluated model's
id dictionary makes the whole run abort with a key-lookup error — that
entry is not skipped and no per-entry isolation exists. -/
theorem C2_missing_id_aborts (gm : GetMetricsFn) (c : Dataset) (mode : Mode)
    (bs : ℕ) (spec : Option (List String)) (maxd : ℚ) (model : String)
    (original modelSplit : List Entry) (e : Entry)
    (hmodel : model ∈ c.keys) (hmodel_ne : model ≠ "original")
    (hskip : ¬ skippedModel spec model)
    (hms : c.get model = some modelSplit)
    (horig : c.get "original" = some original)
    (he : e ∈ original)
    (hmiss : dictGet (buildIdDict modelSplit) e.id = none) :
    ∃ i, evaluate_dataset gm c mode bs spec maxd = .error (.keyError i) := by
  rw [evaluate_dataset]
  exact evalModels_error_of_missing gm c mode bs spec maxd _ model original
    modelSplit e
    (List.mem_filter.mpr ⟨hmodel, by simp [hmodel_ne]⟩)
    (fun m hm => get_isSome_of_mem_keys c m (List.mem_of_mem_filter hm))
    horig hskip hms he hmiss

/-- C2 (witness): original entry with id 2, model mapping holding only
id 1: the run aborts with a key error. -/
theorem C2_missing_id_aborts_witness : ∃ i,
    evaluate_dataset (fun _ _ _ => [("mse", 0)])
      ⟨[("original", [⟨2, ⟨[0], 1⟩⟩]), ("m", [⟨1, ⟨[0], 1⟩⟩])]⟩
      Mode.streaming 100 none 120 = .error (.keyError i) :=
  C2_missing_id_aborts (fun _ _ _ => [("mse", 0)])
    ⟨[("original", [⟨2, ⟨[0], 1⟩⟩]), ("m", [⟨1, ⟨[0], 1⟩⟩])]⟩
    Mode.streaming 100 none 120 "m" [⟨2, ⟨[0], 1⟩⟩] [⟨1, ⟨[0], 1⟩⟩]
    ⟨2, ⟨[0], 1⟩⟩ (by decide) (by decide) (by decide) (by rfl) (by rfl)
    (by decide) (by rfl)

/-- C3 (counterexample): an entry whose raw original duration (1 s) is at
most `max_duration` (2 s) contributes no record when the resynthesized
array is longer: the duration check runs on the padded original signal
(3 samples at 1 Hz, 3 s > 2 s), so the entry is silently dropped. -/
theorem C3_counterexample :
    duration (Entry.mk 1 ⟨[0], 1⟩).audio.array
        (Entry.mk 1 ⟨[0], 1⟩).audio.sampling_rate ≤ 2 ∧
    processStreaming (fun _ _ _ => [("mse", 0)]) [(1, [0, 0, 0])] 2
      [⟨1, ⟨[0], 1⟩⟩] [] = .ok [] := by
  constructor
  · norm_num [duration]
  · norm_num [processStreaming, compute_metrics, dictGet, pad_arrays_to_match,
      duration]

/-- C3 (amended): an original entry with a resolvable id contributes
exactly one metrics record when the duration of its *padded* original
signal (max of the two array lengths over the sampling rate) is at most
`max_duration`, and is silently dropped — no error, no record — when that
padded duration exceeds `max_duration`. In particular an entry whose raw
original duration exceeds `max_duration` always contributes none. -/
theorem C3_duration_gate (gm : GetMetricsFn) (e : Entry)
    (d : List (ℕ × List ℤ)) (maxd : ℚ) (r : List ℤ) (acc : List Metrics)
    (h : dictGet d e.id = some r) :
    (¬ duration (pad_arrays_to_match e.audio.array r).1
        e.audio.sampling_rate > maxd →
      processStreaming gm d maxd [e] acc =
        .ok (acc ++ [gm (pad_arrays_to_match e.audio.array r).1
          (pad_arrays_to_match e.audio.array r).2 e.audio.sampling_rate])) ∧
    (duration (pad_arrays_to_match e.audio.array r).1
        e.audio.sampling_rate > maxd →
      processStreaming gm d maxd [e] acc = .ok acc) := by
  constructor <;> intro hdur <;>
    simp [processStreaming, compute_metrics, h, hdur]

/-- C3 (witness): with `max_duration` 5 the same entry's padded duration
(3 s) passes the check and exactly one record is accumulated. -/
theorem C3_duration_gate_witness :
    processStreaming (fun _ _ _ => [("mse", 0)]) [(1, [0, 0, 0])] 5
      [⟨1, ⟨[0], 1⟩⟩] [] = .ok [[("mse", 0)]] := by
  have h := (C3_duration_gate (fun _ _ _ => [("mse", 0)]) ⟨1, ⟨[0], 1⟩⟩
    [(1, [0, 0, 0])] 5 [0, 0, 0] [] (by rfl)).1
    (by norm_num [duration, pad_arrays_to_match])
  exact h

/-- C4 (counterexample): passing `--models other_model` where no split of
that name exists does not raise: the run completes with an empty result
mapping and no error. -/
theorem C4_counterexample :
    evaluate_dataset (fun _ _ _ => [("mse", 0)])
      ⟨[("original", []), ("m", [])]⟩ Mode.streaming 100
      (some ["other_model"]) 120 = .ok [] := by
  rfl

/-- C4 (amended): a `--models` name that matches no split of the dataset is
silently ignored — the run behaves exactly as if the name had not been
passed, and the name never appears as a key of the output mapping. -/
theorem C4_unknown_model_ignored (gm : GetMetricsFn) (c : Dataset)
    (mode : Mode) (bs : ℕ) (maxd : ℚ) (name : String)
    (others : List String) (hname : name ∉ c.keys) :
    (evaluate_dataset gm c mode bs (some (name :: others)) maxd =
      evaluate_dataset gm c mode bs (some others) maxd) ∧
    ∀ res, evaluate_dataset gm c mode bs (some (name :: others)) maxd = .ok res →
      name ∉ res.map Prod.fst := by
  constructor
  · rw [evaluate_dataset, evaluate_dataset]
    exact evalModels_unknown_name gm c mode bs maxd name others hname _
      (fun m hm => List.mem_of_mem_filter hm)
  · intro res hres
    rw [evaluate_dataset] at hres
    rw [evalModels_ok_keys _ _ _ _ _ _ _ _ hres]
    intro hmem
    exact hname (List.mem_of_mem_filter (List.mem_of_mem_filter hmem))

/-- C4 (witness): filtering with the unknown name `"ghost"` next to `"m"`
gives the same run as filtering with `"m"` alone. -/
theorem C4_unknown_model_ignored_witness :
    evaluate_dataset (fun _ _ _ => [("q", 1)])
        ⟨[("original", []), ("m", [])]⟩ Mode.streaming 100
        (some ["ghost", "m"]) 120 =
      evaluate_dataset (fun _ _ _ => [("q", 1)])
        ⟨[("original", []), ("m", [])]⟩ Mode.streaming 100
        (some ["m"]) 120 :=
  (C4_unknown_model_ignored (fun _ _ _ => [("q", 1)])
    ⟨[("original", []), ("m", [])]⟩ Mode.streaming 100 120 "ghost" ["m"]
    (by decide)).1

/-- C5: with a `--models` filter, only listed models appear as keys of the
output mapping, and the run never reads the split of a model outside the
filter — replacing such a split (so that its id mapping would differ)
leaves the whole run unchanged. -/
theorem C5_models_subset (gm : GetMetricsFn) (c c2 : Dataset) (mode : Mode)
    (bs : ℕ) (maxd : ℚ) (specList : List String)
    (hkeys : c.keys = c2.keys)
    (horig : c.get "original" = c2.get "original")
    (hspec : ∀ m ∈ specList, c.get m = c2.get m) :
    (evaluate_dataset gm c mode bs (some specList) maxd =
      evaluate_dataset gm c2 mode bs (some specList) maxd) ∧
    ∀ res, evaluate_dataset gm c mode bs (some specList) maxd = .ok res →
      ∀ m ∈ res.map Prod.fst, m ∈ specList := by
  constructor
  · rw [evaluate_dataset, evaluate_dataset, hkeys]
    exact evalModels_congr_filtered gm mode bs maxd specList c c2 horig hspec _
  · intro res hres m hm
    rw [evaluate_dataset] at hres
    rw [evalModels_ok_keys _ _ _ _ _ _ _ _ hres] at hm
    have h2 := (List.mem_filter.mp hm).2
    simpa [skippedModel] using h2

/-- C5 (witness): with `--models n`, replacing the skipped model `"m"`'s
split by an empty one changes nothing about the run. -/
theorem C5_models_subset_witness :
    evaluate_dataset (fun _ _ _ => [("q", 1)])
        ⟨[("original", []), ("m", [⟨1, ⟨[0], 1⟩⟩]), ("n", [])]⟩
        Mode.streaming 100 (some ["n"]) 120 =
      evaluate_dataset (fun _ _ _ => [("q", 1)])
        ⟨[("original", []), ("m", []), ("n", [])]⟩
        Mode.streaming 100 (some ["n"]) 120 :=
  (C5_models_subset (fun _ _ _ => [("q", 1)])
    ⟨[("original", []), ("m", [⟨1, ⟨[0], 1⟩⟩]), ("n", [])]⟩
    ⟨[("original", []), ("m", []), ("n", [])]⟩
    Mode.streaming 100 120 ["n"] (by rfl) (by rfl) (by decide)).1

/-- C6 (counterexample): with `batch_size = 0` (an argparse-accepted
integer) the generator never flushes mid-loop and yields one batch of all
five entries, so "every batch has size at most batch_size" fails. -/
theorem C6_counterexample :
    ¬ ∀ b ∈ batched_dataset ([0, 1, 2, 3, 4] : List ℕ) 0, b.length ≤ 0 := by
  decide

/-- C6 (amended): for every original split, the batches concatenate back
to the original sequence and — when `batch_size ≥ 1` — each batch has size
at most `batch_size`; and for every batch size, 0 included, batch mode
produces a run identical to streaming mode on the same data. -/
theorem C6_batch_partition (gm : GetMetricsFn) (c : Dataset)
    (spec : Option (List String)) (maxd : ℚ) (xs : List Entry)
    (bs bs2 : ℕ) :
    (1 ≤ bs → ∀ b ∈ batched_dataset xs bs, b.length ≤ bs) ∧
    (batched_dataset xs bs).flatten = xs ∧
    evaluate_dataset gm c Mode.batch bs spec maxd =
      evaluate_dataset gm c Mode.streaming bs2 spec maxd := by
  refine ⟨fun hbs => batchedGo_length_le bs hbs xs [] (by simpa using hbs),
    batched_dataset_flatten xs bs, ?_⟩
  rw [evaluate_dataset, evaluate_dataset]
  exact evalModels_mode_irrel gm c spec maxd _ Mode.batch Mode.streaming bs bs2

/-- C6 (witness): the spec's concrete scenario — batch size 2 over 5
original entries gives batch sizes summing back to the original split,
and the batch-mode run equals the streaming-mode run. -/
theorem C6_batch_partition_witness :
    (∀ b ∈ batched_dataset [Entry.mk 1 ⟨[0], 1⟩, Entry.mk 2 ⟨[0], 1⟩,
        Entry.mk 3 ⟨[0], 1⟩, Entry.mk 4 ⟨[0], 1⟩, Entry.mk 5 ⟨[0], 1⟩] 2,
      b.length ≤ 2) ∧
    (batched_dataset [Entry.mk 1 ⟨[0], 1⟩, Entry.mk 2 ⟨[0], 1⟩,
        Entry.mk 3 ⟨[0], 1⟩, Entry.mk 4 ⟨[0], 1⟩,
        Entry.mk 5 ⟨[0], 1⟩] 2).flatten =
      [Entry.mk 1 ⟨[0], 1⟩, Entry.mk 2 ⟨[0], 1⟩, Entry.mk 3 ⟨[0], 1⟩,
       Entry.mk 4 ⟨[0], 1⟩, Entry.mk 5 ⟨[0], 1⟩] ∧
    evaluate_dataset (fun _ _ _ => [("q", 1)]) ⟨[("original", []), ("m", [])]⟩
        Mode.batch 2 none 120 =
      evaluate_dataset (fun _ _ _ => [("q", 1)]) ⟨[("original", []), ("m", [])]⟩
        Mode.streaming 100 none 120 :=
  have h := C6_batch_partition (fun _ _ _ => [("q", 1)])
    ⟨[("original", []), ("m", [])]⟩
    none 120 [Entry.mk 1 ⟨[0], 1⟩, Entry.mk 2 ⟨[0], 1⟩, Entry.mk 3 ⟨[0], 1⟩,
      Entry.mk 4 ⟨[0], 1⟩, Entry.mk 5 ⟨[0], 1⟩] 2 100
  ⟨h.1 (by decide), h.2.1, h.2.2⟩

/-- C7: aggregation is order-independent — processing a permutation of the
original entries (all ids resolvable) yields a permuted record list and
identical per-metric arithmetic means, since the reduction is a plain mean
over the collected values. -/
theorem C7_order_independent (gm : GetMetricsFn) (d : List (ℕ × List ℤ))
    (maxd : ℚ) (xs ys : List Entry) (hperm : xs.Perm ys)
    (hids : ∀ e ∈ xs, (dictGet d e.id).isSome) :
    ∃ r1 r2, processStreaming gm d maxd xs [] = .ok r1 ∧
      processStreaming gm d maxd ys [] = .ok r2 ∧ r1.Perm r2 ∧
      ∀ k, mean (aggregate r1 k) = mean (aggregate r2 k) := by
  have hids2 : ∀ e ∈ ys, (dictGet d e.id).isSome :=
    fun e he => hids e (hperm.mem_iff.mpr he)
  refine ⟨xs.filterMap (entryRecord gm d maxd),
    ys.filterMap (entryRecord gm d maxd), ?_, ?_, ?_, ?_⟩
  · simpa using processStreaming_ok gm d maxd xs [] hids
  · simpa using processStreaming_ok gm d maxd ys [] hids2
  · exact hperm.filterMap _
  · intro k
    exact mean_perm _ _ (aggregate_perm _ _ (hperm.filterMap _) k)

/-- C7 (witness): swapping two concrete entries gives permuted record lists
with equal per-metric means. -/
theorem C7_order_independent_witness : ∃ r1 r2,
    processStreaming (fun a _ _ => [("len", (a.length : ℚ))])
      [(1, [0]), (2, [0, 0])] 120
      [⟨1, ⟨[0], 1⟩⟩, ⟨2, ⟨[0, 0], 1⟩⟩] [] = .ok r1 ∧
    processStreaming (fun a _ _ => [("len", (a.length : ℚ))])
      [(1, [0]), (2, [0, 0])] 120
      [⟨2, ⟨[0, 0], 1⟩⟩, ⟨1, ⟨[0], 1⟩⟩] [] = .ok r2 ∧ r1.Perm r2 ∧
    ∀ k, mean (aggregate r1 k) = mean (aggregate r2 k) :=
  C7_order_independent (fun a _ _ => [("len", (a.length : ℚ))])
    [(1, [0]), (2, [0, 0])] 120
    [⟨1, ⟨[0], 1⟩⟩, ⟨2, ⟨[0, 0], 1⟩⟩] [⟨2, ⟨[0, 0], 1⟩⟩, ⟨1, ⟨[0], 1⟩⟩]
    (by decide) (by decide)

/-- C8: padding is symmetric in length — both padded arrays have the same
length, that length is the maximum of the two original lengths, and each
input survives as a prefix of its padded form (so no samples of the longer
array are truncated). -/
theorem C8_padding_lengths (a b : List ℤ) :
    (pad_arrays_to_match a b).1.length = (pad_arrays_to_match a b).2.length ∧
    (pad_arrays_to_match a b).1.length = max a.length b.length ∧
    (pad_arrays_to_match a b).1.take a.length = a ∧
    (pad_arrays_to_match a b).2.take b.length = b := by
  refine ⟨?_, ?_, ?_, ?_⟩
  · simp [pad_arrays_to_match]
  · simp [pad_arrays_to_match]
  · simp [pad_arrays_to_match, List.take_left]
  · simp [pad_arrays_to_match, List.take_left]

/-- C9: `compute_metrics` looks the id up and pads before the duration
check, so an entry that would be skipped for duration still aborts the run
with a key error when its id is missing from the mapping. -/
theorem C9_lookup_before_duration (gm : GetMetricsFn) (e : Entry)
    (d : List (ℕ × List ℤ)) (maxd : ℚ) (rest : List Entry)
    (acc : List Metrics) (hmiss : dictGet d e.id = none)
    (hdur : duration e.audio.array e.audio.sampling_rate > maxd) :
    compute_metrics gm e d maxd = .error e.id ∧
    processStreaming gm d maxd (e :: rest) acc = .error e.id := by
  have h1 : compute_metrics gm e d maxd = .error e.id := by
    simp [compute_metrics, hmiss]
  exact ⟨h1, by simp [processStreaming, h1]⟩

/-- C9 (witness): a three-second entry with `max_duration` one second and a
missing id fails with the key error instead of being duration-skipped. -/
theorem C9_lookup_before_duration_witness :
    compute_metrics (fun _ _ _ => [("q", 1)]) ⟨7, ⟨[0, 0, 0], 1⟩⟩ [] 1 =
      .error 7 ∧
    processStreaming (fun _ _ _ => [("q", 1)]) [] 1
      [⟨7, ⟨[0, 0, 0], 1⟩⟩] [] = .error 7 :=
  C9_lookup_before_duration (fun _ _ _ => [("q", 1)]) ⟨7, ⟨[0, 0, 0], 1⟩⟩
    [] 1 [] [] (by rfl) (by norm_num [duration])

/-- C10: the key `"original"` never appears in the result mapping of a
completed run, whatever the dataset and `--models` filter: the model list
is built by excluding the `"original"` split. -/
theorem C10_no_original_key (gm : GetMetricsFn) (c : Dataset) (mode : Mode)
    (bs : ℕ) (spec : Option (List String)) (maxd : ℚ)
    (res : List (String × List (String × ℚ)))
    (h : evaluate_dataset gm c mode bs spec maxd = .ok res) :
    "original" ∉ res.map Prod.fst := by
  rw [evaluate_dataset] at h
  rw [evalModels_ok_keys _ _ _ _ _ _ _ _ h]
  intro hmem
  have h2 := (List.mem_filter.mp (List.mem_of_mem_filter hmem)).2
  simp at h2

/-- C10 (witness): a completed concrete run whose output keys exclude
`"original"`. -/
theorem C10_no_original_key_witness :
    "original" ∉ (([("m", []), ("n", [])] :
      List (String × List (String × ℚ))).map Prod.fst) :=
  C10_no_original_key (fun _ _ _ => [("q", 1)])
    ⟨[("original", []), ("m", []), ("n", [])]⟩ Mode.streaming 100 none 120
    [("m", []), ("n", [])] (by rfl)
